import Mathlib

/-!
Verification of `limits/storage/redis_sentinel.py` (class `RedisSentinelStorage`).

The constructor and the read operations are embedded shallowly:

* Python strings are `List Char`; the relevant slice of `urllib.parse.urlparse`
  (scheme / netloc / path / query / fragment splitting and the
  `username` / `password` properties) is reproduced from CPython's `urlsplit`.
  For the scheme `redis+sentinel`, `urlparse` never splits `;`-params
  (the scheme is not in `uses_params`), so `params` is always empty.
* Python dicts are association lists (`PyDict`) preserving insertion order,
  with `d[k] = v` (`dSet`), `d.setdefault` (`dSetdefault`) and lookup (`dGet`).
* Python object identity of the two caller-supplied dictionaries is modelled by
  a small heap (`Store`): refs are `Nat` indices, `dict.copy()` allocates a
  fresh cell, so frame properties of the constructor are expressible.
* `int(s)` is `pyInt` (strip whitespace, optional sign, digits with
  underscores allowed between digits); Python numeric literals are kept in
  exact decimal scientific form: `Val.num m e` stands for `m / 10 ^ e`, so
  the float literal `0.2` is `Val.num 2 1`.
* Exceptions become an explicit result type `InitResult`:
  `ConfigurationError msg`, the `ValueError` thrown by tuple unpacking of
  `loc.split(":")` or by `int(port)`, or success carrying the constructed
  object's fields.
* Pieces of this repository that the class uses but that are not under `src/`
  (`get_dependency`, `redis.sentinel.Sentinel`, the inherited
  `initialize_storage` and the protected helpers of the parent classes) are
  modelled from the spec; each such definition carries a doc comment starting
  with `Modelled from the spec:`.
-/

namespace LimitsSentinel

/-- Python `s.split(sep)` for a one-character separator: `"".split` is `[""]`,
adjacent separators produce empty pieces. -/
def pySplit (sep : Char) : List Char → List (List Char)
  | [] => [[]]
  | c :: rest =>
    match pySplit sep rest with
    | [] => [[]]
    | piece :: pieces =>
      if c = sep then [] :: piece :: pieces else (c :: piece) :: pieces

/-- Helper for `netloc[netloc.find(c) + 1:]`: the part after the first
occurrence of `c`, or `none` when `c` does not occur. -/
def afterFirstGo (c : Char) : List Char → Option (List Char)
  | [] => none
  | x :: rest => if x = c then some rest else afterFirstGo c rest

/-- Python `netloc[netloc.find("@") + 1:]` (lines 56-58 of the source): with no
`@` the `find` returns `-1`, so the slice is the whole string. -/
def afterFirstAt (l : List Char) : List Char :=
  match afterFirstGo '@' l with
  | some r => r
  | none => l

/-- Python `s.rpartition(sep)` restricted to what `urlsplit` needs: `some
(before, after)` split at the LAST occurrence of `sep`, `none` if absent. -/
def lastSplit (sep : Char) : List Char → Option (List Char × List Char)
  | [] => none
  | c :: rest =>
    match lastSplit sep rest with
    | some (u, h) => some (c :: u, h)
    | none => if c = sep then some ([], rest) else none

/-- Python `s.partition(sep)` restricted to what `urlsplit` needs:
`(before, some after)` split at the FIRST occurrence of `sep`, or
`(s, none)` if absent. -/
def splitAtFirst (sep : Char) : List Char → List Char × Option (List Char)
  | [] => ([], none)
  | c :: rest =>
    if c = sep then ([], some rest)
    else
      let (a, b) := splitAtFirst sep rest
      (c :: a, b)

/-- Characters allowed in a URL scheme after the first one
(CPython `scheme_chars`). -/
def isSchemeChar (c : Char) : Bool :=
  c.isAlphanum || c = '+' || c = '-' || c = '.'

/-- Scheme detection of CPython `urlsplit`: the prefix before the first `:` is
the scheme when it is non-empty, starts with an ASCII letter and consists of
scheme characters; it is lowered and removed, otherwise the URL is unchanged. -/
def splitScheme (url : List Char) : List Char × List Char :=
  match splitAtFirst ':' url with
  | (before, some after) =>
    match before with
    | [] => ([], url)
    | c :: rest =>
      if c.isAlpha && (c :: rest).all isSchemeChar then
        ((c :: rest).map Char.toLower, after)
      else ([], url)
  | (_, none) => ([], url)

/-- Delimiters ending the netloc in CPython `_splitnetloc`. -/
def isNetlocStop (c : Char) : Bool :=
  c = '/' || c = '?' || c = '#'

/-- Netloc extraction of CPython `urlsplit`: after a leading `//`, the netloc
runs until the first `/`, `?` or `#`. -/
def splitNetloc (url : List Char) : List Char × List Char :=
  match url with
  | '/' :: '/' :: rest =>
    (rest.takeWhile (fun c => !isNetlocStop c), rest.dropWhile (fun c => !isNetlocStop c))
  | _ => ([], url)

/-- The `username` / `password` properties of a parse result: CPython splits
the netloc at the last `@`; without one both are `None`; the userinfo is then
partitioned at the first `:`, and with no `:` the password is `None`. -/
def netlocUserinfo (netloc : List Char) : Option (List Char) × Option (List Char) :=
  match lastSplit '@' netloc with
  | none => (none, none)
  | some (userinfo, _) =>
    let (u, p) := splitAtFirst ':' userinfo
    (some u, p)

/-- Result of `urllib.parse.urlparse` (the fields the source reads, plus the
remaining split fields). -/
structure ParsedUrl where
  scheme : List Char
  netloc : List Char
  path : List Char
  query : List Char
  fragment : List Char
  username : Option (List Char)
  password : Option (List Char)
deriving DecidableEq

/-- The slice of `urllib.parse.urlparse` the source exercises, following
CPython `urlsplit`: scheme, then `//netloc`, then fragment at the first `#`,
then query at the first `?`; `username` / `password` are derived from the
netloc. `;`-params are never split for the scheme `redis+sentinel` (it is not
in `uses_params`). -/
def urlparse (url : List Char) : ParsedUrl :=
  let (scheme, rest1) := splitScheme url
  let (netloc, rest2) := splitNetloc rest1
  let (rest3, fragment) := splitAtFirst '#' rest2
  let (path, query) := splitAtFirst '?' rest3
  let (u, p) := netlocUserinfo netloc
  { scheme := scheme
    netloc := netloc
    path := path
    query := query.getD []
    fragment := fragment.getD []
    username := u
    password := p }

/-- Whitespace stripped by Python `int(str)`. -/
def isPySpace (c : Char) : Bool :=
  c = ' ' || c = '\t' || c = '\n' || c = '\r' || c = '\x0b' || c = '\x0c'

/-- Python `s.strip()` as used by `int(str)`. -/
def pyStrip (l : List Char) : List Char :=
  ((l.dropWhile isPySpace).reverse.dropWhile isPySpace).reverse

/-- Numeric value of a decimal digit character. -/
def digitVal (c : Char) : Nat := c.toNat - '0'.toNat

/-- Continuation of `pyDigits`: further digits, with `_` allowed only between
two digits (Python 3.6 numeric-literal underscores in `int(str)`). -/
def pyDigitsGo (acc : Nat) : List Char → Option Nat
  | [] => some acc
  | '_' :: c :: rest =>
    if c.isDigit then pyDigitsGo (acc * 10 + digitVal c) rest else none
  | c :: rest =>
    if c.isDigit then pyDigitsGo (acc * 10 + digitVal c) rest else none

/-- Digit-sequence parsing of Python `int(str)`: non-empty, decimal, with
underscores only between digits. -/
def pyDigits : List Char → Option Nat
  | [] => none
  | c :: rest => if c.isDigit then pyDigitsGo (digitVal c) rest else none

/-- Python `int(str)`: strip whitespace, optional single sign, digits;
`none` models the `ValueError` raised on anything else. -/
def pyInt (l : List Char) : Option Int :=
  match pyStrip l with
  | '+' :: rest => (pyDigits rest).map Int.ofNat
  | '-' :: rest => (pyDigits rest).map (fun n => -(n : Int))
  | t => (pyDigits t).map Int.ofNat

/-- Values stored in the modelled Python dictionaries: parsed strings,
numbers in exact decimal scientific form (`num m e` is `m / 10 ^ e`, so the
Python float literal `0.2` is `num 2 1`), and abstract caller-supplied
values. -/
inductive Val where
  | str : List Char → Val
  | num : Int → Nat → Val
  | other : Nat → Val
deriving DecidableEq

/-- A Python dict as an insertion-ordered association list. -/
abbrev PyDict := List (String × Val)

/-- Python `d[k]` lookup (first, hence unique, binding of the key). -/
def dGet (d : PyDict) (k : String) : Option Val :=
  match List.find? (fun p => p.1 == k) d with
  | some p => some p.2
  | none => none

/-- Python `d[k] = v`: overwrite in place when the key exists, else append. -/
def dSet (d : PyDict) (k : String) (v : Val) : PyDict :=
  match dGet d k with
  | some _ => d.map (fun p => if p.1 == k then (k, v) else p)
  | none => d ++ [(k, v)]

/-- Python `d.setdefault(k, v)`: append the default only when absent. -/
def dSetdefault (d : PyDict) (k : String) (v : Val) : PyDict :=
  match dGet d k with
  | some _ => d
  | none => d ++ [(k, v)]

/-- A heap of Python dict objects: refs are `Nat` indices below `next`;
`dict.copy()` allocates a fresh cell, so mutation of a copy is distinguishable
from mutation of the caller's object. -/
structure Store where
  next : Nat
  mem : Nat → PyDict

/-- Dereference a dict object. -/
def Store.read (σ : Store) (r : Nat) : PyDict := σ.mem r

/-- Allocate a fresh dict object at index `next` (the ref of the new object). -/
def Store.allocD (σ : Store) (d : PyDict) : Store :=
  { next := σ.next + 1, mem := fun i => if i = σ.next then d else σ.mem i }

/-- In-place update of the dict object at `r`. -/
def Store.write (σ : Store) (r : Nat) (d : PyDict) : Store :=
  { σ with mem := fun i => if i = r then d else σ.mem i }

/-- Endpoint role of a connection handle. -/
inductive HandleTag where
  | primary
  | replica
deriving DecidableEq

/-- A connection handle obtained from the discovery client, tagged with the
endpoint role it routes to and the sentinel service it resolves. -/
structure Handle where
  tag : HandleTag
  service : List Char
deriving DecidableEq

/-- Modelled from the spec: `redis.sentinel.Sentinel.master_for` (external
discovery client) yields the handle of the current primary for the service. -/
def masterFor (service : List Char) : Handle := ⟨HandleTag.primary, service⟩

/-- Modelled from the spec: `redis.sentinel.Sentinel.slave_for` (external
discovery client) yields the handle of a replica for the service. -/
def slaveFor (service : List Char) : Handle := ⟨HandleTag.replica, service⟩

/-- Python `host, port = loc.split(":")` followed by `int(port)`:
`none` models the `ValueError` raised when the split does not yield exactly
two pieces or the port is not an integer literal. The host may be empty. -/
def parseLoc (loc : List Char) : Option (List Char × Int) :=
  match pySplit ':' loc with
  | [host, port] => (pyInt port).map (fun v => (host, v))
  | _ => none

/-- `Option`-valued `mapM` mirroring the source's `for` loop: pairs are
converted left to right and the first `ValueError` aborts. -/
def optMapM (f : α → Option β) : List α → Option (List β)
  | [] => some []
  | a :: l =>
    match f a with
    | none => none
    | some b =>
      match optMapM f l with
      | none => none
      | some bs => some (b :: bs)

/-- The loop of lines 58-60: split the post-credentials netloc on `,` and
convert every piece to a `(host, int(port))` tuple, in order. -/
def parseNodes (s : List Char) : Option (List (List Char × Int)) :=
  optMapM parseLoc (pySplit ',' s)

/-- Lines 61-66 without the error: the service name is the path with every `/`
removed when the path is non-empty, else the explicit parameter. -/
def serviceNameOf (path : List Char) (service_name : Option (List Char)) :
    Option (List Char) :=
  if path ≠ [] then some (path.filter (fun c => c != '/')) else service_name

/-- The fields of a successfully constructed `RedisSentinelStorage`. -/
structure RedisSentinelStorage where
  sentinel_configuration : List (List Char × Int)
  sentinel_options : PyDict
  connection_options : PyDict
  service_name : List Char
  storage : Handle
  storage_slave : Handle
deriving DecidableEq

/-- Outcome of `RedisSentinelStorage.__init__`: a `ConfigurationError` with
its message, the `ValueError` escaping from the node loop, or the constructed
object. -/
inductive InitResult where
  | confError : String → InitResult
  | valueError : InitResult
  | ok : RedisSentinelStorage → InitResult
deriving DecidableEq

/-- Shallow embedding of `RedisSentinelStorage.__init__` (lines 20-78).
`redisAvailable` models the `get_dependency("redis")` probe (the `..util`
helper is not under `src/`); `masterReachable` is modelled from the spec: the
inherited `initialize_storage` (not under `src/`) raises `ConfigurationError`
when the resolved master cannot be pinged, after all parsing is done.
`sentinel_kwargs` and `options` are refs into the heap `σ` (`options` stands
for the `**options` dict); both are only ever copied, never written. -/
def redisSentinelInit (redisAvailable masterReachable : Bool) (uri : List Char)
    (service_name : Option (List Char)) (sentinel_kwargs : Option Nat)
    (options : Nat) (σ : Store) : InitResult × Store :=
  if !redisAvailable then
    (InitResult.confError "redis prerequisite not available", σ)
  else
    let parsed := urlparse uri
    let connRef := σ.next
    let σ1 := σ.allocD (σ.read options)
    let sentRef := σ1.next
    let σ2 := σ1.allocD (match sentinel_kwargs with
      | some r => σ1.read r
      | none => [])
    let σ3 := match parsed.username with
      | some u =>
        if u ≠ [] then σ2.write sentRef (dSet (σ2.read sentRef) "username" (Val.str u))
        else σ2
      | none => σ2
    let σ4 := match parsed.password with
      | some pw =>
        if pw ≠ [] then σ3.write sentRef (dSet (σ3.read sentRef) "password" (Val.str pw))
        else σ3
      | none => σ3
    match parseNodes (afterFirstAt parsed.netloc) with
    | none => (InitResult.valueError, σ4)
    | some cfg =>
      match serviceNameOf parsed.path service_name with
      | none => (InitResult.confError "'service_name' not provided", σ4)
      | some sn =>
        let σ5 := σ4.write connRef
          (dSetdefault (σ4.read connRef) "socket_timeout" (Val.num 2 1))
        if !masterReachable then
          (InitResult.confError "redis sentinel master not reachable", σ5)
        else
          (InitResult.ok
            { sentinel_configuration := cfg
              sentinel_options := σ5.read sentRef
              connection_options := σ5.read connRef
              service_name := sn
              storage := masterFor sn
              storage_slave := slaveFor sn }, σ5)

/-- Outcome of pinging one endpoint, as seen by a liveness probe. -/
inductive PingOutcome where
  | answered
  | timedOut
  | unreachable
  | protocolError
  | dependencyAbsent
deriving DecidableEq

/-- State of the backing store as observable through the two endpoint roles:
per-endpoint counter values, per-endpoint expiry times, and the outcome a ping
of each endpoint would have. Reads through a replica may lag the primary, so
the two views are independent. -/
structure StoreWorld where
  counts : HandleTag → String → Int
  expiries : HandleTag → String → Int
  ping : HandleTag → PingOutcome

/-- Modelled from the spec: `RedisStorage._get` (parent class, not under
`src/`) reads the counter value of `key` through the supplied connection
handle. -/
def rsGetHelper (conn : Handle) (w : StoreWorld) (key : String) : Int :=
  w.counts conn.tag key

/-- Modelled from the spec: `RedisStorage._get_expiry` (parent class, not
under `src/`) reads the expiry of `key` through the supplied connection
handle. -/
def rsGetExpiryHelper (conn : Handle) (w : StoreWorld) (key : String) : Int :=
  w.expiries conn.tag key

/-- Modelled from the spec: `RedisStorage._check` (parent class, not under
`src/`) pings through the supplied connection handle and returns `true` iff
the endpoint answers within the configured timeout; every failure (timeout,
unreachable endpoint, protocol error, absent dependency) yields `false`. The
definition is total, so no exception can escape. -/
def rsCheckHelper (conn : Handle) (w : StoreWorld) : Bool :=
  match w.ping conn.tag with
  | PingOutcome.answered => true
  | _ => false

/-- Source lines 80-85: `get` delegates to `_get` with `self.storage_slave`. -/
def RedisSentinelStorage.get (st : RedisSentinelStorage) (w : StoreWorld)
    (key : String) : Int :=
  rsGetHelper st.storage_slave w key

/-- Source lines 87-92: `get_expiry` delegates to `_get_expiry` with
`self.storage_slave`. -/
def RedisSentinelStorage.get_expiry (st : RedisSentinelStorage) (w : StoreWorld)
    (key : String) : Int :=
  rsGetExpiryHelper st.storage_slave w key

/-- Source lines 94-99: `check` delegates to `_check` with
`self.storage_slave`. -/
def RedisSentinelStorage.check (st : RedisSentinelStorage) (w : StoreWorld) : Bool :=
  rsCheckHelper st.storage_slave w

/-- Modelled from the spec: the inherited `incr` (parent class, not under
`src/`) atomically adds `amount` to the counter of `key` through
`self.storage` and returns the resulting count. -/
def RedisSentinelStorage.incr (st : RedisSentinelStorage) (w : StoreWorld)
    (key : String) (amount : Int) : Int × StoreWorld :=
  let newVal := w.counts st.storage.tag key + amount
  (newVal,
    { w with counts := fun t k =>
        if t = st.storage.tag ∧ k = key then newVal else w.counts t k })

/-- Modelled from the spec: the inherited `clear` (parent class, not under
`src/`) deletes all state of `key` through `self.storage`. -/
def RedisSentinelStorage.clear (st : RedisSentinelStorage) (w : StoreWorld)
    (key : String) : StoreWorld :=
  { w with
    counts := fun t k =>
      if t = st.storage.tag ∧ k = key then 0 else w.counts t k
    expiries := fun t k =>
      if t = st.storage.tag ∧ k = key then 0 else w.expiries t k }

/-- Modelled from the spec: the inherited `reset` (parent class, not under
`src/`) flushes every key through `self.storage`. -/
def RedisSentinelStorage.reset (st : RedisSentinelStorage) (w : StoreWorld) :
    StoreWorld :=
  { w with
    counts := fun t k => if t = st.storage.tag then 0 else w.counts t k
    expiries := fun t k => if t = st.storage.tag then 0 else w.expiries t k }

/-- The caller's `sentinel_kwargs` dict by value: the dereferenced ref, or the
empty dict when `None` was passed. -/
def kwDict (σ : Store) (kw : Option Nat) : PyDict :=
  match kw with
  | some r => σ.read r
  | none => []

/-- Value-level description of lines 50-54: conditionally store the parsed
credentials into the sentinel option map. -/
def applyCreds (p : ParsedUrl) (d : PyDict) : PyDict :=
  let d1 := match p.username with
    | some u => if u ≠ [] then dSet d "username" (Val.str u) else d
    | none => d
  match p.password with
  | some pw => if pw ≠ [] then dSet d1 "password" (Val.str pw) else d1
  | none => d1

theorem dGet_cons (p : String × Val) (d : PyDict) (k : String) :
    dGet (p :: d) k = if p.1 == k then some p.2 else dGet d k := by
  cases h : p.1 == k <;> simp [dGet, List.find?, h]

theorem dGet_append_single (d : PyDict) (k k' : String) (v : Val) (h : k' ≠ k) :
    dGet (d ++ [(k, v)]) k' = dGet d k' := by
  induction d with
  | nil => simp [dGet_cons, dGet, Ne.symm h]
  | cons p d ih =>
    rw [List.cons_append, dGet_cons, dGet_cons, ih]

theorem dGet_append_single_self (d : PyDict) (k : String) (v : Val)
    (h : dGet d k = none) : dGet (d ++ [(k, v)]) k = some v := by
  induction d with
  | nil => simp [dGet_cons, dGet]
  | cons p d ih =>
    rw [List.cons_append, dGet_cons]
    rw [dGet_cons] at h
    cases hp : p.1 == k with
    | true => rw [hp] at h; exact absurd h (by simp)
    | false => rw [hp] at h; simp [ih h]

theorem dGet_map_replace (d : PyDict) (k : String) (v w : Val)
    (h : dGet d k = some w) :
    dGet (d.map (fun p => if p.1 == k then (k, v) else p)) k = some v := by
  induction d with
  | nil => simp [dGet] at h
  | cons p d ih =>
    rw [dGet_cons] at h
    cases hp : p.1 == k with
    | true =>
      simp only [List.map_cons, hp, if_true, dGet_cons]
      simp
    | false =>
      rw [hp] at h
      simp only [Bool.false_eq_true, if_false] at h
      simp only [List.map_cons, hp, if_false, dGet_cons]
      simp only [hp, Bool.false_eq_true, if_false]
      exact ih h

theorem dGet_map_replace_other (d : PyDict) (k k' : String) (v : Val)
    (h : k' ≠ k) :
    dGet (d.map (fun p => if p.1 == k then (k, v) else p)) k' = dGet d k' := by
  induction d with
  | nil => simp [dGet]
  | cons p d ih =>
    cases hp : p.1 == k with
    | true =>
      have hpk : p.1 = k := by simpa using hp
      have hkk' : (k == k') = false := by simp [Ne.symm h]
      have hpk' : (p.1 == k') = false := by simp [hpk, Ne.symm h]
      simp only [List.map_cons, hp, if_true, dGet_cons, hkk', hpk']
      simp only [Bool.false_eq_true, if_false]
      exact ih
    | false =>
      simp only [List.map_cons, hp, if_false, dGet_cons]
      simp only [Bool.false_eq_true, if_false, dGet_cons]
      rw [ih]

theorem dGet_dSet_same (d : PyDict) (k : String) (v : Val) :
    dGet (dSet d k v) k = some v := by
  unfold dSet
  cases h : dGet d k with
  | none => exact dGet_append_single_self d k v h
  | some w => exact dGet_map_replace d k v w h

theorem dGet_dSet_other (d : PyDict) (k k' : String) (v : Val) (h : k' ≠ k) :
    dGet (dSet d k v) k' = dGet d k' := by
  unfold dSet
  cases hd : dGet d k with
  | none => exact dGet_append_single d k k' v h
  | some w => exact dGet_map_replace_other d k k' v h

theorem dSetdefault_of_some (d : PyDict) (k : String) (v w : Val)
    (h : dGet d k = some w) : dSetdefault d k v = d := by
  unfold dSetdefault
  rw [h]

theorem dGet_dSetdefault_absent (d : PyDict) (k : String) (v : Val)
    (h : dGet d k = none) : dGet (dSetdefault d k v) k = some v := by
  unfold dSetdefault
  rw [h]
  exact dGet_append_single_self d k v h

theorem dGet_dSetdefault_present (d : PyDict) (k : String) (v w : Val)
    (h : dGet d k = some w) : dGet (dSetdefault d k v) k = some w := by
  rw [dSetdefault_of_some d k v w h, h]

theorem dGet_dSetdefault_other (d : PyDict) (k k' : String) (v : Val)
    (h : k' ≠ k) : dGet (dSetdefault d k v) k' = dGet d k' := by
  unfold dSetdefault
  cases hd : dGet d k with
  | none => exact dGet_append_single d k k' v h
  | some w => rfl

theorem optMapM_forall (f : α → Option β) :
    ∀ l : List α, (∀ a ∈ l, (f a).isSome) →
      ∃ bs, optMapM f l = some bs ∧
        List.Forall₂ (fun a b => f a = some b) l bs := by
  intro l
  induction l with
  | nil => exact fun _ => ⟨[], rfl, List.Forall₂.nil⟩
  | cons a l ih =>
    intro h
    obtain ⟨b, hb⟩ := Option.isSome_iff_exists.mp (h a (List.mem_cons_self a l))
    obtain ⟨bs, hbs, hf⟩ := ih (fun x hx => h x (List.mem_cons_of_mem a hx))
    exact ⟨b :: bs, by simp [optMapM, hb, hbs], List.Forall₂.cons hb hf⟩

theorem optMapM_none_of_mem (f : α → Option β) (l : List α) (a : α)
    (ha : a ∈ l) (hfa : f a = none) : optMapM f l = none := by
  induction l with
  | nil => cases ha
  | cons x l ih =>
    rcases List.mem_cons.mp ha with h | h
    · subst h; simp [optMapM, hfa]
    · cases hx : f x with
      | none => simp [optMapM, hx]
      | some b => simp [optMapM, hx, ih h]

theorem init_ok_char (uri : List Char) (svc : Option (List Char)) (kw : Option Nat)
    (opts : Nat) (σ : Store) (cfg : List (List Char × Int)) (sn : List Char)
    (hkw : ∀ r, kw = some r → r < σ.next)
    (hnodes : parseNodes (afterFirstAt (urlparse uri).netloc) = some cfg)
    (hsvc : serviceNameOf (urlparse uri).path svc = some sn) :
    (redisSentinelInit true true uri svc kw opts σ).1 =
      InitResult.ok
        { sentinel_configuration := cfg
          sentinel_options := applyCreds (urlparse uri) (kwDict σ kw)
          connection_options :=
            dSetdefault (σ.read opts) "socket_timeout" (Val.num 2 1)
          service_name := sn
          storage := masterFor sn
          storage_slave := slaveFor sn } := by
  have hne : σ.next + 1 ≠ σ.next := Nat.succ_ne_self σ.next
  simp only [redisSentinelInit, Bool.not_true, Bool.false_eq_true, if_false]
  rcases kw with _ | r
  · rcases hU : (urlparse uri).username with _ | (_ | ⟨c1, u1⟩) <;>
    rcases hQ : (urlparse uri).password with _ | (_ | ⟨c2, q1⟩) <;>
    simp [Store.allocD, Store.write, Store.read, applyCreds, kwDict,
      hnodes, hsvc, hne, hU, hQ]
  · have hr : r ≠ σ.next := Nat.ne_of_lt (hkw r rfl)
    rcases hU : (urlparse uri).username with _ | (_ | ⟨c1, u1⟩) <;>
    rcases hQ : (urlparse uri).password with _ | (_ | ⟨c2, q1⟩) <;>
    simp [Store.allocD, Store.write, Store.read, applyCreds, kwDict,
      hnodes, hsvc, hne, hr, hU, hQ]

theorem init_service_name_missing (mr : Bool) (uri : List Char)
    (svc : Option (List Char)) (kw : Option Nat) (opts : Nat) (σ : Store)
    (cfg : List (List Char × Int))
    (hnodes : parseNodes (afterFirstAt (urlparse uri).netloc) = some cfg)
    (hsvc : serviceNameOf (urlparse uri).path svc = none) :
    (redisSentinelInit true mr uri svc kw opts σ).1 =
      InitResult.confError "'service_name' not provided" := by
  simp only [redisSentinelInit, Bool.not_true, Bool.false_eq_true, if_false]
  rcases hU : (urlparse uri).username with _ | (_ | ⟨c1, u1⟩) <;>
  rcases hQ : (urlparse uri).password with _ | (_ | ⟨c2, q1⟩) <;>
  simp [hnodes, hsvc]

theorem init_nodes_value_error (mr : Bool) (uri : List Char)
    (svc : Option (List Char)) (kw : Option Nat) (opts : Nat) (σ : Store)
    (hnodes : parseNodes (afterFirstAt (urlparse uri).netloc) = none) :
    (redisSentinelInit true mr uri svc kw opts σ).1 = InitResult.valueError := by
  simp only [redisSentinelInit, Bool.not_true, Bool.false_eq_true, if_false]
  rcases hU : (urlparse uri).username with _ | (_ | ⟨c1, u1⟩) <;>
  rcases hQ : (urlparse uri).password with _ | (_ | ⟨c2, q1⟩) <;>
  simp [hnodes]

theorem init_ok_handles (uri : List Char) (svc : Option (List Char))
    (kw : Option Nat) (opts : Nat) (σ : Store) (st : RedisSentinelStorage)
    (h : (redisSentinelInit true true uri svc kw opts σ).1 = InitResult.ok st) :
    st.storage = masterFor st.service_name ∧
    st.storage_slave = slaveFor st.service_name := by
  simp only [redisSentinelInit, Bool.not_true, Bool.false_eq_true, if_false] at h
  repeat' split at h
  all_goals injection h
  all_goals rename_i h2
  all_goals subst h2
  all_goals exact ⟨rfl, rfl⟩

/-- The empty heap: no dict objects allocated yet. -/
def emptyStore : Store := ⟨0, fun _ => []⟩

theorem noKw {n : Nat} : ∀ r : Nat, (none : Option Nat) = some r → r < n :=
  fun _ h => nomatch h

/-- C1: service-name resolution in the constructor: with the redis dependency
available and a well-formed node list, the service name comes from the uri
path when the path is non-empty, else from the explicit parameter, and when
both are absent construction fails with
ConfigurationError("'service_name' not provided"); supplying the name either
way succeeds. -/
theorem C1_service_name_resolution (uri : List Char) (svc : Option (List Char))
    (kw : Option Nat) (opts : Nat) (σ : Store) (cfg : List (List Char × Int))
    (hkw : ∀ r, kw = some r → r < σ.next)
    (hnodes : parseNodes (afterFirstAt (urlparse uri).netloc) = some cfg) :
    ((urlparse uri).path ≠ [] →
      ∃ st, (redisSentinelInit true true uri svc kw opts σ).1 = InitResult.ok st ∧
        st.service_name = (urlparse uri).path.filter (fun c => c != '/')) ∧
    (∀ s, (urlparse uri).path = [] → svc = some s →
      ∃ st, (redisSentinelInit true true uri svc kw opts σ).1 = InitResult.ok st ∧
        st.service_name = s) ∧
    ((urlparse uri).path = [] → svc = none →
      (redisSentinelInit true true uri svc kw opts σ).1 =
        InitResult.confError "'service_name' not provided") := by
  refine ⟨?_, ?_, ?_⟩
  · intro hp
    exact ⟨_, init_ok_char uri svc kw opts σ cfg _ hkw hnodes
      (by simp [serviceNameOf, hp]), rfl⟩
  · intro s hp hs
    subst hs
    exact ⟨_, init_ok_char uri (some s) kw opts σ cfg s hkw hnodes
      (by simp [serviceNameOf, hp]), rfl⟩
  · intro hp hs
    subst hs
    exact init_service_name_missing true uri none kw opts σ cfg hnodes
      (by simp [serviceNameOf, hp])

theorem C1_witness :
    (∃ st, (redisSentinelInit true true "redis+sentinel://h1:26379/mymaster".data
        none none 0 emptyStore).1 = InitResult.ok st ∧
      st.service_name = "mymaster".data) ∧
    (∃ st, (redisSentinelInit true true "redis+sentinel://h1:26379".data
        (some "par".data) none 0 emptyStore).1 = InitResult.ok st ∧
      st.service_name = "par".data) ∧
    (redisSentinelInit true true "redis+sentinel://h1:26379".data
        none none 0 emptyStore).1 =
      InitResult.confError "'service_name' not provided" := by
  refine ⟨?_, ?_, ?_⟩
  · obtain ⟨st, h1, h2⟩ :=
      (C1_service_name_resolution "redis+sentinel://h1:26379/mymaster".data none
        none 0 emptyStore [("h1".data, 26379)] noKw (by decide)).1 (by decide)
    exact ⟨st, h1, by rw [h2]; decide⟩
  · obtain ⟨st, h1, h2⟩ :=
      (C1_service_name_resolution "redis+sentinel://h1:26379".data
        (some "par".data) none 0 emptyStore [("h1".data, 26379)] noKw
        (by decide)).2.1 "par".data (by decide) rfl
    exact ⟨st, h1, h2⟩
  · exact (C1_service_name_resolution "redis+sentinel://h1:26379".data none
      none 0 emptyStore [("h1".data, 26379)] noKw (by decide)).2.2 (by decide) rfl

/-- C10: when the uri path is non-empty the derived service name is the path
with every slash removed; a path of only slashes yields the empty service
name, which is accepted without error. -/
theorem C10_path_service_name (uri : List Char) (svc : Option (List Char))
    (kw : Option Nat) (opts : Nat) (σ : Store) (cfg : List (List Char × Int))
    (hkw : ∀ r, kw = some r → r < σ.next)
    (hnodes : parseNodes (afterFirstAt (urlparse uri).netloc) = some cfg)
    (hpath : (urlparse uri).path ≠ []) :
    ∃ st, (redisSentinelInit true true uri svc kw opts σ).1 = InitResult.ok st ∧
      st.service_name = (urlparse uri).path.filter (fun c => c != '/') ∧
      ((∀ c ∈ (urlparse uri).path, c = '/') → st.service_name = []) := by
  refine ⟨_, init_ok_char uri svc kw opts σ cfg _ hkw hnodes
    (by simp [serviceNameOf, hpath]), rfl, ?_⟩
  intro hall
  simp only [List.filter_eq_nil_iff]
  intro c hc
  simp [hall c hc]

theorem C10_witness :
    (∃ st, (redisSentinelInit true true "redis+sentinel://h1:26379/a/b".data
        none none 0 emptyStore).1 = InitResult.ok st ∧
      st.service_name = "ab".data) ∧
    (∃ st, (redisSentinelInit true true "redis+sentinel://h1:26379//".data
        none none 0 emptyStore).1 = InitResult.ok st ∧
      st.service_name = []) := by
  constructor
  · obtain ⟨st, h1, h2, _⟩ := C10_path_service_name
      "redis+sentinel://h1:26379/a/b".data none none 0 emptyStore
      [("h1".data, 26379)] noKw (by decide) (by decide)
    exact ⟨st, h1, by rw [h2]; decide⟩
  · obtain ⟨st, h1, _, h3⟩ := C10_path_service_name
      "redis+sentinel://h1:26379//".data none none 0 emptyStore
      [("h1".data, 26379)] noKw (by decide) (by decide)
    exact ⟨st, h1, h3 (by decide)⟩

/-- C7: with the redis dependency unavailable, construction fails with
ConfigurationError("redis prerequisite not available") regardless of every
other argument, and the heap is untouched: the failure happens before any
parsing or connection attempt. -/
theorem C7_missing_dependency_fails_first (mr : Bool) (uri : List Char)
    (svc : Option (List Char)) (kw : Option Nat) (opts : Nat) (σ : Store) :
    redisSentinelInit false mr uri svc kw opts σ =
      (InitResult.confError "redis prerequisite not available", σ) := by
  simp [redisSentinelInit]

/-- C6 counterexample: the claim says a node pair with an empty host or a
non-integer port makes construction fail with ConfigurationError; on the code
an empty host is accepted (the pair ("", 26379) is stored) and a non-integer
port raises ValueError, not ConfigurationError. -/
theorem C6_counterexample :
    ((redisSentinelInit true true "redis+sentinel://:26379/s".data none none 0
        emptyStore).1 =
      InitResult.ok
        { sentinel_configuration := [([], 26379)]
          sentinel_options := []
          connection_options := [("socket_timeout", Val.num 2 1)]
          service_name := ['s']
          storage := masterFor ['s']
          storage_slave := slaveFor ['s'] }) ∧
    (redisSentinelInit true true "redis+sentinel://h1:abc/s".data none none 0
        emptyStore).1 = InitResult.valueError := by
  exact ⟨by decide, by decide⟩

/-- C6 (amended): when some comma-separated piece of the post-credentials
netloc does not split at ":" into exactly a host and a port whose text parses
as a Python int, construction fails with ValueError (host emptiness is
irrelevant and ConfigurationError is not raised). -/
theorem C6_malformed_pair_value_error (mr : Bool) (uri : List Char)
    (svc : Option (List Char)) (kw : Option Nat) (opts : Nat) (σ : Store)
    (loc : List Char)
    (hmem : loc ∈ pySplit ',' (afterFirstAt (urlparse uri).netloc))
    (hbad : parseLoc loc = none) :
    (redisSentinelInit true mr uri svc kw opts σ).1 = InitResult.valueError :=
  init_nodes_value_error mr uri svc kw opts σ
    (optMapM_none_of_mem parseLoc _ loc hmem hbad)

theorem C6_malformed_pair_witness :
    (redisSentinelInit true true "redis+sentinel://h1:abc,h2:26380/s".data none
        none 0 emptyStore).1 = InitResult.valueError :=
  C6_malformed_pair_value_error true "redis+sentinel://h1:abc,h2:26380/s".data
    none none 0 emptyStore "h1:abc".data (by decide) (by decide)

theorem applyCreds_username_set (p : ParsedUrl) (d : PyDict) (u : List Char)
    (hu : p.username = some u) (hne : u ≠ []) :
    dGet (applyCreds p d) "username" = some (Val.str u) := by
  have hpu : ("username" : String) ≠ "password" := by decide
  unfold applyCreds
  rcases hq : p.password with _ | q
  · simp [hu, hq, hne, dGet_dSet_same]
  · by_cases hqe : q = [] <;>
      simp [hu, hq, hne, hqe, dGet_dSet_same, dGet_dSet_other, hpu]

theorem applyCreds_username_pass (p : ParsedUrl) (d : PyDict)
    (hu : p.username = none ∨ p.username = some []) :
    dGet (applyCreds p d) "username" = dGet d "username" := by
  have hpu : ("username" : String) ≠ "password" := by decide
  rcases hu with h | h <;>
  rcases hq : p.password with _ | q
  · simp [applyCreds, h, hq]
  · by_cases hqe : q = [] <;>
      simp [applyCreds, h, hq, hqe, dGet_dSet_other, hpu]
  · simp [applyCreds, h, hq]
  · by_cases hqe : q = [] <;>
      simp [applyCreds, h, hq, hqe, dGet_dSet_other, hpu]

theorem applyCreds_password_set (p : ParsedUrl) (d : PyDict) (q : List Char)
    (hq : p.password = some q) (hne : q ≠ []) :
    dGet (applyCreds p d) "password" = some (Val.str q) := by
  unfold applyCreds
  rcases hu : p.username with _ | u
  · simp [hu, hq, hne, dGet_dSet_same]
  · by_cases hue : u = [] <;>
      simp [hu, hq, hne, hue, dGet_dSet_same]

theorem applyCreds_password_pass (p : ParsedUrl) (d : PyDict)
    (hq : p.password = none ∨ p.password = some []) :
    dGet (applyCreds p d) "password" = dGet d "password" := by
  have hup : ("password" : String) ≠ "username" := by decide
  rcases hq with h | h <;>
  rcases hu : p.username with _ | u
  · simp [applyCreds, h, hu]
  · by_cases hue : u = [] <;>
      simp [applyCreds, h, hu, hue, dGet_dSet_other, hup]
  · simp [applyCreds, h, hu]
  · by_cases hue : u = [] <;>
      simp [applyCreds, h, hu, hue, dGet_dSet_other, hup]

theorem applyCreds_other (p : ParsedUrl) (d : PyDict) (k : String)
    (h1 : k ≠ "username") (h2 : k ≠ "password") :
    dGet (applyCreds p d) k = dGet d k := by
  unfold applyCreds
  rcases hu : p.username with _ | u <;>
  rcases hq : p.password with _ | q
  · simp [hu, hq]
  · by_cases hqe : q = [] <;>
      simp [hu, hq, hqe, dGet_dSet_other, h1, h2]
  · by_cases hue : u = [] <;>
      simp [hu, hq, hue, dGet_dSet_other, h1, h2]
  · by_cases hue : u = [] <;> by_cases hqe : q = [] <;>
      simp [hu, hq, hue, hqe, dGet_dSet_other, h1, h2]

/-- A heap whose dict at ref 0 already carries a socket timeout. -/
def timeoutStore : Store := ⟨1, fun _ => [("socket_timeout", Val.num 5 0)]⟩

/-- A heap with one caller-supplied dict at ref 0, used as concrete input. -/
def kwStore : Store :=
  ⟨1, fun _ => [("username", Val.str ['c', 'a']), ("z", Val.other 3)]⟩

/-- C2: for every connection string whose post-credentials authority consists
of comma-separated pieces that each parse as host:port with an integer port
(and which carries a service name), construction succeeds and the sentinel
configuration is the list of the corresponding (host, int(port)) tuples, one
per piece, in the listed order. -/
theorem C2_topology_node_list (uri : List Char) (svc : Option (List Char))
    (kw : Option Nat) (opts : Nat) (σ : Store) (sn : List Char)
    (hkw : ∀ r, kw = some r → r < σ.next)
    (hok : ∀ loc ∈ pySplit ',' (afterFirstAt (urlparse uri).netloc),
      (parseLoc loc).isSome)
    (hsvc : serviceNameOf (urlparse uri).path svc = some sn) :
    ∃ st, (redisSentinelInit true true uri svc kw opts σ).1 = InitResult.ok st ∧
      st.sentinel_configuration.length =
        (pySplit ',' (afterFirstAt (urlparse uri).netloc)).length ∧
      List.Forall₂ (fun loc node => parseLoc loc = some node)
        (pySplit ',' (afterFirstAt (urlparse uri).netloc))
        st.sentinel_configuration := by
  obtain ⟨cfg, hcfg, hf⟩ := optMapM_forall parseLoc _ hok
  exact ⟨_, init_ok_char uri svc kw opts σ cfg sn hkw hcfg hsvc,
    (List.Forall₂.length_eq hf).symm, hf⟩

theorem C2_witness :
    ∃ st, (redisSentinelInit true true
        "redis+sentinel://h1:26379,h2:26380/m".data none none 0 emptyStore).1 =
      InitResult.ok st ∧
      st.sentinel_configuration.length = 2 ∧
      List.Forall₂ (fun loc node => parseLoc loc = some node)
        (pySplit ',' (afterFirstAt
          (urlparse "redis+sentinel://h1:26379,h2:26380/m".data).netloc))
        st.sentinel_configuration := by
  obtain ⟨st, h1, h2, h3⟩ := C2_topology_node_list
    "redis+sentinel://h1:26379,h2:26380/m".data none none 0 emptyStore
    ['m'] noKw (by decide) (by decide)
  exact ⟨st, h1, by rw [h2]; decide, h3⟩

/-- C5: a non-empty username (resp. password) parsed from the uri is stored in
the sentinel option map under "username" (resp. "password"), overriding any
caller-supplied value for that key; with no (or an empty) parsed credential
the caller-supplied entries pass through unchanged, as do all other keys. -/
theorem C5_credential_merging (uri : List Char) (svc : Option (List Char))
    (kw : Option Nat) (opts : Nat) (σ : Store) (cfg : List (List Char × Int))
    (sn : List Char)
    (hkw : ∀ r, kw = some r → r < σ.next)
    (hnodes : parseNodes (afterFirstAt (urlparse uri).netloc) = some cfg)
    (hsvc : serviceNameOf (urlparse uri).path svc = some sn) :
    ∃ st, (redisSentinelInit true true uri svc kw opts σ).1 = InitResult.ok st ∧
      (∀ u, (urlparse uri).username = some u → u ≠ [] →
        dGet st.sentinel_options "username" = some (Val.str u)) ∧
      (((urlparse uri).username = none ∨ (urlparse uri).username = some []) →
        dGet st.sentinel_options "username" = dGet (kwDict σ kw) "username") ∧
      (∀ q, (urlparse uri).password = some q → q ≠ [] →
        dGet st.sentinel_options "password" = some (Val.str q)) ∧
      (((urlparse uri).password = none ∨ (urlparse uri).password = some []) →
        dGet st.sentinel_options "password" = dGet (kwDict σ kw) "password") ∧
      (∀ k, k ≠ "username" → k ≠ "password" →
        dGet st.sentinel_options k = dGet (kwDict σ kw) k) := by
  refine ⟨_, init_ok_char uri svc kw opts σ cfg sn hkw hnodes hsvc,
    ?_, ?_, ?_, ?_, ?_⟩
  · exact fun u hu hne => applyCreds_username_set (urlparse uri) _ u hu hne
  · exact fun hu => applyCreds_username_pass (urlparse uri) _ hu
  · exact fun q hq hne => applyCreds_password_set (urlparse uri) _ q hq hne
  · exact fun hq => applyCreds_password_pass (urlparse uri) _ hq
  · exact fun k h1 h2 => applyCreds_other (urlparse uri) _ k h1 h2

theorem C5_witness :
    ∃ st, (redisSentinelInit true true
        "redis+sentinel://u:sek@h1:26379/m".data none (some 0) 0 kwStore).1 =
      InitResult.ok st ∧
      dGet st.sentinel_options "username" = some (Val.str ['u']) ∧
      dGet st.sentinel_options "password" = some (Val.str ['s', 'e', 'k']) ∧
      dGet st.sentinel_options "z" = some (Val.other 3) := by
  obtain ⟨st, h, h1, _, h3, _, h5⟩ := C5_credential_merging
    "redis+sentinel://u:sek@h1:26379/m".data none (some 0) 0 kwStore
    [(['h', '1'], 26379)] ['m'] (fun r hrr => by cases hrr; decide)
    (by decide) (by decide)
  refine ⟨st, h, h1 ['u'] (by decide) (by decide),
    h3 ['s', 'e', 'k'] (by decide) (by decide), ?_⟩
  rw [h5 "z" (by decide) (by decide)]
  decide

/-- C8: if the caller-supplied options carry no "socket_timeout" key the
constructor stores the default 0.2 seconds in the connection options passed to
the discovery client; a caller-supplied timeout leaves the options unchanged;
no other key is touched. -/
theorem C8_socket_timeout_default (uri : List Char) (svc : Option (List Char))
    (kw : Option Nat) (opts : Nat) (σ : Store) (cfg : List (List Char × Int))
    (sn : List Char)
    (hkw : ∀ r, kw = some r → r < σ.next)
    (hnodes : parseNodes (afterFirstAt (urlparse uri).netloc) = some cfg)
    (hsvc : serviceNameOf (urlparse uri).path svc = some sn) :
    ∃ st, (redisSentinelInit true true uri svc kw opts σ).1 = InitResult.ok st ∧
      (dGet (σ.read opts) "socket_timeout" = none →
        dGet st.connection_options "socket_timeout" = some (Val.num 2 1)) ∧
      (∀ v, dGet (σ.read opts) "socket_timeout" = some v →
        st.connection_options = σ.read opts) ∧
      (∀ k, k ≠ "socket_timeout" →
        dGet st.connection_options k = dGet (σ.read opts) k) := by
  refine ⟨_, init_ok_char uri svc kw opts σ cfg sn hkw hnodes hsvc,
    ?_, ?_, ?_⟩
  · exact fun h => dGet_dSetdefault_absent _ _ _ h
  · exact fun v h => dSetdefault_of_some _ _ _ v h
  · exact fun k hk => dGet_dSetdefault_other _ _ k _ hk

theorem C8_witness :
    (∃ st, (redisSentinelInit true true "redis+sentinel://h1:26379/m".data
        none none 0 emptyStore).1 = InitResult.ok st ∧
      dGet st.connection_options "socket_timeout" = some (Val.num 2 1)) ∧
    (∃ st, (redisSentinelInit true true "redis+sentinel://h1:26379/m".data
        none none 0 timeoutStore).1 = InitResult.ok st ∧
      st.connection_options = timeoutStore.read 0) := by
  constructor
  · obtain ⟨st, h, h1, _, _⟩ := C8_socket_timeout_default
      "redis+sentinel://h1:26379/m".data none none 0 emptyStore
      [(['h', '1'], 26379)] ['m'] noKw (by decide) (by decide)
    exact ⟨st, h, h1 (by decide)⟩
  · obtain ⟨st, h, _, h2, _⟩ := C8_socket_timeout_default
      "redis+sentinel://h1:26379/m".data none none 0 timeoutStore
      [(['h', '1'], 26379)] ['m'] noKw (by decide) (by decide)
    exact ⟨st, h, h2 (Val.num 5 0) (by decide)⟩

/-- The object constructed from `redis+sentinel://h1:26379/m`, used as a
concrete successful construction in witnesses. -/
def stW : RedisSentinelStorage :=
  { sentinel_configuration := [(['h', '1'], 26379)]
    sentinel_options := []
    connection_options := [("socket_timeout", Val.num 2 1)]
    service_name := ['m']
    storage := masterFor ['m']
    storage_slave := slaveFor ['m'] }

/-- A store world whose replica answers pings and whose two endpoint views
hold different counts, so routing is observable. -/
def wW : StoreWorld :=
  { counts := fun t _ => if t = HandleTag.primary then 5 else 3
    expiries := fun _ _ => 7
    ping := fun t => if t = HandleTag.replica then PingOutcome.answered
      else PingOutcome.unreachable }

/-- A store world whose replica times out on pings. -/
def wWdown : StoreWorld :=
  { counts := fun _ _ => 0
    expiries := fun _ _ => 0
    ping := fun _ => PingOutcome.timedOut }

/-- C3: on every successfully constructed storage, the handle kept in
`storage` is the primary and the one in `storage_slave` is a replica;
`get`, `get_expiry` and `check` read only the replica view, while the
modelled mutating operations `incr`, `clear` and `reset` act on the primary
view and leave every other endpoint view unchanged. -/
theorem C3_read_write_routing (uri : List Char) (svc : Option (List Char))
    (kw : Option Nat) (opts : Nat) (σ : Store) (st : RedisSentinelStorage)
    (h : (redisSentinelInit true true uri svc kw opts σ).1 = InitResult.ok st) :
    st.storage.tag = HandleTag.primary ∧
    st.storage_slave.tag = HandleTag.replica ∧
    (∀ w key, st.get w key = w.counts HandleTag.replica key) ∧
    (∀ w key, st.get_expiry w key = w.expiries HandleTag.replica key) ∧
    (∀ w, st.check w = true ↔ w.ping HandleTag.replica = PingOutcome.answered) ∧
    (∀ w key amount,
      (st.incr w key amount).1 = w.counts HandleTag.primary key + amount ∧
      ∀ t k, t ≠ HandleTag.primary →
        (st.incr w key amount).2.counts t k = w.counts t k) ∧
    (∀ w key,
      (st.clear w key).counts HandleTag.primary key = 0 ∧
      ∀ t k, t ≠ HandleTag.primary →
        (st.clear w key).counts t k = w.counts t k) ∧
    (∀ w,
      (∀ k, (st.reset w).counts HandleTag.primary k = 0) ∧
      ∀ t k, t ≠ HandleTag.primary →
        (st.reset w).counts t k = w.counts t k) := by
  obtain ⟨hs, hsl⟩ := init_ok_handles uri svc kw opts σ st h
  have htp : st.storage.tag = HandleTag.primary := by rw [hs]; rfl
  have htr : st.storage_slave.tag = HandleTag.replica := by rw [hsl]; rfl
  refine ⟨htp, htr, ?_, ?_, ?_, ?_, ?_, ?_⟩
  · intro w key
    simp [RedisSentinelStorage.get, rsGetHelper, htr]
  · intro w key
    simp [RedisSentinelStorage.get_expiry, rsGetExpiryHelper, htr]
  · intro w
    simp only [RedisSentinelStorage.check, rsCheckHelper, htr]
    cases hp : w.ping HandleTag.replica <;> simp [hp]
  · intro w key amount
    constructor
    · simp [RedisSentinelStorage.incr, htp]
    · intro t k ht
      simp [RedisSentinelStorage.incr, htp, ht]
  · intro w key
    constructor
    · simp [RedisSentinelStorage.clear, htp]
    · intro t k ht
      simp [RedisSentinelStorage.clear, htp, ht]
  · intro w
    constructor
    · intro k
      simp [RedisSentinelStorage.reset, htp]
    · intro t k ht
      simp [RedisSentinelStorage.reset, htp, ht]

theorem C3_witness :
    stW.storage.tag = HandleTag.primary ∧
    stW.storage_slave.tag = HandleTag.replica ∧
    stW.get wW "a" = wW.counts HandleTag.replica "a" ∧
    stW.get_expiry wW "a" = wW.expiries HandleTag.replica "a" ∧
    (stW.incr wW "a" 1).1 = wW.counts HandleTag.primary "a" + 1 := by
  obtain ⟨h1, h2, h3, h4, _, h6, _, _⟩ := C3_read_write_routing
    "redis+sentinel://h1:26379/m".data none none 0 emptyStore stW (by decide)
  exact ⟨h1, h2, h3 wW "a", h4 wW "a", (h6 wW "a" 1).1⟩

/-- C4: on every successfully constructed storage, `check` probes the routed
replica endpoint and returns true exactly when it answers within the timeout;
every failing outcome (timeout, unreachable, protocol error, absent
dependency) yields false, and the definition is total, so no exception can
escape. -/
theorem C4_check_fail_safe (uri : List Char) (svc : Option (List Char))
    (kw : Option Nat) (opts : Nat) (σ : Store) (st : RedisSentinelStorage)
    (w : StoreWorld)
    (h : (redisSentinelInit true true uri svc kw opts σ).1 = InitResult.ok st) :
    (st.check w = true ↔ w.ping HandleTag.replica = PingOutcome.answered) ∧
    (∀ o, w.ping HandleTag.replica = o → o ≠ PingOutcome.answered →
      st.check w = false) := by
  obtain ⟨_, hsl⟩ := init_ok_handles uri svc kw opts σ st h
  have htr : st.storage_slave.tag = HandleTag.replica := by rw [hsl]; rfl
  constructor
  · simp only [RedisSentinelStorage.check, rsCheckHelper, htr]
    cases hp : w.ping HandleTag.replica <;> simp [hp]
  · intro o ho hno
    cases o with
    | answered => exact absurd rfl hno
    | timedOut => simp [RedisSentinelStorage.check, rsCheckHelper, htr, ho]
    | unreachable => simp [RedisSentinelStorage.check, rsCheckHelper, htr, ho]
    | protocolError => simp [RedisSentinelStorage.check, rsCheckHelper, htr, ho]
    | dependencyAbsent =>
      simp [RedisSentinelStorage.check, rsCheckHelper, htr, ho]

theorem C4_witness :
    stW.check wW = true ∧ stW.check wWdown = false := by
  constructor
  · exact (C4_check_fail_safe "redis+sentinel://h1:26379/m".data none none 0
      emptyStore stW wW (by decide)).1.mpr (by decide)
  · exact (C4_check_fail_safe "redis+sentinel://h1:26379/m".data none none 0
      emptyStore stW wWdown (by decide)).2 PingOutcome.timedOut (by decide)
      (by decide)

/-- C9: the constructor never mutates a dict object that existed before the
call: every ref allocated before the call (in particular the caller's
`options` and `sentinel_kwargs` dicts) dereferences to the same dict after
construction, whatever the outcome. -/
theorem C9_no_caller_dict_mutation (ra mr : Bool) (uri : List Char)
    (svc : Option (List Char)) (kw : Option Nat) (opts : Nat) (σ : Store)
    (r : Nat) (hr : r < σ.next) :
    ((redisSentinelInit ra mr uri svc kw opts σ).2).read r = σ.read r := by
  have h1 : r ≠ σ.next := Nat.ne_of_lt hr
  have h2 : r ≠ σ.next + 1 := by omega
  cases ra
  · simp [redisSentinelInit]
  · simp only [redisSentinelInit, Bool.not_true, Bool.false_eq_true, if_false]
    rcases hU : (urlparse uri).username with _ | (_ | ⟨c1, u1⟩) <;>
    rcases hQ : (urlparse uri).password with _ | (_ | ⟨c2, q1⟩) <;>
    rcases hN : parseNodes (afterFirstAt (urlparse uri).netloc) with _ | cfg <;>
    rcases hS : serviceNameOf (urlparse uri).path svc with _ | sn <;>
    cases mr <;>
    simp [Store.allocD, Store.write, Store.read, h1, h2]

theorem C9_witness :
    ((redisSentinelInit true true "redis+sentinel://u:sek@h1:26379/m".data
      none (some 0) 0 kwStore).2).read 0 = kwStore.read 0 :=
  C9_no_caller_dict_mutation true true
    "redis+sentinel://u:sek@h1:26379/m".data none (some 0) 0 kwStore 0
    (by decide)

end LimitsSentinel
